import Mathlib

/-!
Verification development for the retrieval-augmented-generation engine of the
terminalchat repository: the text chunker (`src/rag/embeddings.py`), the
embeddings cache (`src/rag/embeddings_cache.py`), the corpus index and
retriever (`src/rag/manager.py`), and the prompt assembler
(`src/models/prompt_formatter.py`).

Texts are embedded as `List Char` (a Python `str` is a sequence of characters);
machine floats that are only stored and compared (similarity scores, embedding
coordinates) are embedded as `ℚ`; file-modification timestamps, which the code
only compares for equality, are embedded as `Int`.  Fallible collaborator calls
(tokenizers, the embedding model, the filesystem) are embedded as
`Option`-returning oracles: `none` plays the role of a raised exception at that
call site.  Loops whose termination is part of what is being verified use an
explicit fuel argument.
-/

/-! ## Python string primitives -/

/-- The characters Python's `str.strip()` removes: space, tab, newline,
carriage return, vertical tab and form feed. -/
def pyIsSpace (c : Char) : Bool :=
  c = ' ' || c = '\t' || c = '\n' || c = '\r' || c = Char.ofNat 11 || c = Char.ofNat 12

/-- Python `str.strip()`. -/
def pyStrip (l : List Char) : List Char :=
  ((l.dropWhile pyIsSpace).reverse.dropWhile pyIsSpace).reverse

/-- Python slice `s[a:b]` for non-negative bounds (both clamp to the length). -/
def pySlice (l : List Char) (a b : Nat) : List Char :=
  (l.take b).drop a

/-- Does `sub` occur in `s` starting at position `i`? -/
def isSubAt (s sub : List Char) (i : Nat) : Bool :=
  decide ((s.drop i).take sub.length = sub)

/-- Python `str.find`: the smallest index at which `sub` occurs in `s`,
or `-1` when it does not occur.  The empty pattern is found at index 0. -/
def pyFind (s sub : List Char) : Int :=
  match (List.range (s.length - sub.length + 1)).find? (fun i => isSubAt s sub i) with
  | some i => (i : Int)
  | none => -1

/-- Python `str.rfind` restricted to present patterns: the largest index at
which `sub` occurs in `s`, as an `Option` (the source only calls `rfind`
after an `in` test, so the `-1` case is represented by `none`). -/
def pyRfind (s sub : List Char) : Option Nat :=
  ((List.range (s.length - sub.length + 1)).filter (fun i => isSubAt s sub i)).getLast?

/-- Python `sub in s`. -/
def pyContains (s sub : List Char) : Bool :=
  (pyRfind s sub).isSome

/-! ## `src/rag/embeddings.py`: `_find_break_point` and `chunk_text` -/

/-- Embedding of `_find_break_point(text, start, end, overlap)`: search a
window around the target end for the best boundary, by priority paragraph
break, line break, sentence-ending punctuation, space, hard cut.
`max start (endp - overlap)` agrees with Python's `max(start, end - overlap)`
because a negative `end - overlap` truncates to `0 ≤ start` in `Nat`. -/
def find_break_point (text : List Char) (start endp overlap : Nat) : Nat :=
  let search_start := max start (endp - overlap)
  let search_end := min text.length (endp + overlap)
  let search_window := pySlice text search_start search_end
  if search_window.isEmpty then endp
  else
    match pyRfind search_window ['\n', '\n'] with
    | some pos => search_start + pos + 2
    | none =>
      match pyRfind search_window ['\n'] with
      | some pos => search_start + pos + 1
      | none =>
        match pyRfind search_window ['.', ' '] with
        | some pos => search_start + pos + 2
        | none =>
          match pyRfind search_window ['!', ' '] with
          | some pos => search_start + pos + 2
          | none =>
            match pyRfind search_window ['?', ' '] with
            | some pos => search_start + pos + 2
            | none =>
              match pyRfind search_window [' '] with
              | some pos => search_start + pos + 1
              | none => endp

/-- Possible outcomes of running the `chunk_text` while-loop with a given
amount of fuel.  `indexError` is the `chunks[-1]` lookup on an empty list;
`outOfFuel` means the loop had not finished within the given number of
iterations. -/
inductive ChunkOutcome where
  | ok (chunks : List (List Char))
  | indexError
  | outOfFuel
deriving DecidableEq, Repr

/-- One-for-one embedding of the `while start < text_len` loop of
`chunk_text`.  Each constructor-step is one loop iteration.  The guard
`if start <= chunks[-1].find(chunk)` is embedded exactly: the freshly
appended (or previous) last chunk is looked up with Python `find`, and the
provisional new start `break_point - overlap_chars` is an `Int` as in Python. -/
def chunk_text_loop (text : List Char) (max_chars overlap_chars : Nat) :
    Nat → Nat → List (List Char) → ChunkOutcome
  | 0, _, _ => .outOfFuel
  | fuel + 1, start, chunks =>
    if start < text.length then
      let endp := start + max_chars
      if endp ≥ text.length then
        let chunk := pyStrip (text.drop start)
        .ok (if chunk.isEmpty then chunks else chunks ++ [chunk])
      else
        let break_point := find_break_point text start endp overlap_chars
        let chunk := pyStrip (pySlice text start break_point)
        let chunks' := if chunk.isEmpty then chunks else chunks ++ [chunk]
        match chunks'.getLast? with
        | none => .indexError
        | some lastChunk =>
          let start' : Int := (break_point : Int) - (overlap_chars : Int)
          if start' ≤ pyFind lastChunk chunk then
            chunk_text_loop text max_chars overlap_chars fuel break_point chunks'
          else
            chunk_text_loop text max_chars overlap_chars fuel start'.toNat chunks'
    else .ok chunks

/-- Embedding of `chunk_text(text, max_chars, overlap_chars)`.  Empty or
whitespace-only input yields `[]` before the loop is entered. -/
def chunk_text (text : List Char) (max_chars overlap_chars fuel : Nat) : ChunkOutcome :=
  if text.isEmpty || (pyStrip text).isEmpty then .ok []
  else chunk_text_loop text max_chars overlap_chars fuel 0 []

/-! ## `src/models/prompt_formatter.py` -/

/-- A chat message: a Python dict with `role` and `content` keys. -/
structure ChatMsg where
  role : String
  content : String
deriving DecidableEq, Repr

/-- The tokenizer collaborator of `prepare_prompt`.  `apply_chat_template`
embeds `tokenizer.apply_chat_template(msgs, tokenize=False,
add_generation_prompt=True)`; `count_tokens` embeds
`tokenizer(prompt, return_tensors='pt').input_ids.shape[1]`.
`none` is a raised exception at that call. -/
structure ChatTemplateTok where
  apply_chat_template : List ChatMsg → Option String
  count_tokens : String → Option Nat

/-- Python `str.strip()` at the `String` level. -/
def pyStripS (s : String) : String :=
  ⟨pyStrip s.toList⟩

/-- The fixed framing `_build_messages_with_rag` wraps around the retrieved
context. -/
def rag_block (r : String) : ChatMsg :=
  ⟨"system",
   "# Knowledge Base Context\n\n" ++ r ++
   "\n\n---\n\nUse the above context to help answer questions when relevant."⟩

/-- Embedding of `_build_messages_with_rag(messages, rag_context)`:
return the messages unchanged when the context is `None`, empty, or
whitespace-only; otherwise inject the framed context after the leading
system message (or at the front when there is none). -/
def build_messages_with_rag (messages : List ChatMsg) (rag_context : Option String) :
    List ChatMsg :=
  match rag_context with
  | none => messages
  | some r =>
    if r = "" || pyStripS r = "" then messages
    else
      match messages with
      | [] => [rag_block r]
      | m0 :: rest =>
        if m0.role = "system" then m0 :: rag_block r :: rest
        else rag_block r :: m0 :: rest

/-- Embedding of `num_preserved = 2 if rag_context else 1`: Python string
truthiness, so any non-empty string (including a whitespace-only one)
selects 2. -/
def num_preserved (rag_context : Option String) : Nat :=
  match rag_context with
  | none => 1
  | some r => if r = "" then 1 else 2

/-- One guarded template-then-measure attempt: the body of the `try` blocks
of `prepare_prompt`.  `none` means one of the two collaborator calls raised. -/
def try_template_count (tok : ChatTemplateTok) (msgs : List ChatMsg) :
    Option (String × Nat) :=
  match tok.apply_chat_template msgs with
  | none => none
  | some p =>
    match tok.count_tokens p with
    | none => none
    | some n => some (p, n)

/-- Embedding of the `while len(pruned_messages) > num_preserved` pruning
loop.  Each iteration either returns a prompt that measures strictly below
`max_length` or pops the message at index `num_pres`
(`pruned.take num_pres ++ pruned.drop (num_pres + 1)` is Python
`pruned_messages.pop(num_preserved)`).  Every iteration shortens the list by
one and the loop exits once the length is at most `num_pres`, so fuel equal
to the initial length always suffices; the fuel-zero case is unreachable
when called that way. -/
def prune_messages_loop (tok : ChatTemplateTok) (max_length num_pres : Nat) :
    Nat → List ChatMsg → Option String × List ChatMsg
  | 0, pruned => (none, pruned)
  | fuel + 1, pruned =>
    if num_pres < pruned.length then
      match try_template_count tok pruned with
      | some (p, n) =>
        if n < max_length then (some p, pruned)
        else prune_messages_loop tok max_length num_pres fuel
          (pruned.take num_pres ++ pruned.drop (num_pres + 1))
      | none => prune_messages_loop tok max_length num_pres fuel
          (pruned.take num_pres ++ pruned.drop (num_pres + 1))
    else (none, pruned)

/-- The pruning loop started on a message list, with its canonical fuel. -/
def prune_messages (tok : ChatTemplateTok) (max_length num_pres : Nat)
    (pruned : List ChatMsg) : Option String × List ChatMsg :=
  prune_messages_loop tok max_length num_pres pruned.length pruned

/-- `messages[-1] if messages else {"role": "user", "content": ""}`. -/
def last_or_default (messages : List ChatMsg) : ChatMsg :=
  (messages.getLast?).getD ⟨"user", ""⟩

/-- The minimal message list of the last-resort template attempt:
`messages_to_format[:num_preserved] + [last_message]`. -/
def minimal_messages (messages : List ChatMsg) (rag_context : Option String) :
    List ChatMsg :=
  (build_messages_with_rag messages rag_context).take (num_preserved rag_context)
    ++ [last_or_default messages]

/-- One role-tagged line of the manual fallback:
`"<|" role "|>\n" content "</s>\n"`. -/
def manual_role_tag (m : ChatMsg) : String :=
  "<|" ++ m.role ++ "|>\n" ++ m.content ++ "</s>\n"

/-- The manual last-resort template: role-tagged pinned prefix messages, the
last original message when there is one, then the assistant header. -/
def manual_format (messages_to_format : List ChatMsg) (num_pres : Nat)
    (messages : List ChatMsg) : String :=
  String.join (((messages_to_format.take num_pres).map manual_role_tag))
    ++ (match messages.getLast? with
        | some m => manual_role_tag m
        | none => "")
    ++ "<|assistant|>\n"

/-- Embedding of `prepare_prompt(messages, tokenizer, max_length,
rag_context)`: try the full message list (return it when it measures
`≤ max_length`), then prune oldest non-preserved messages (returning on a
strict fit), then template the preserved prefix plus the last message
(returned without any length check), and only when that final templating
call raises fall back to the manual template. -/
def prepare_prompt (messages : List ChatMsg) (tok : ChatTemplateTok)
    (max_length : Nat) (rag_context : Option String) : String :=
  let messages_to_format := build_messages_with_rag messages rag_context
  let full_attempt : Option String :=
    match try_template_count tok messages_to_format with
    | some (p, n) => if n ≤ max_length then some p else none
    | none => none
  match full_attempt with
  | some p => p
  | none =>
    let np := num_preserved rag_context
    match prune_messages tok max_length np messages_to_format with
    | (some p, _) => p
    | (none, _) =>
      match tok.apply_chat_template (minimal_messages messages rag_context) with
      | some p => p
      | none => manual_format messages_to_format np messages

/-! ## `src/rag/embeddings_cache.py` -/

/-- An embedding vector: coordinates are machine floats that this code only
stores and passes around, embedded as rationals.  A `float32` value
round-trips exactly through `ndarray.tolist()` (a Python `float` list) and
`np.array(-, dtype=np.float32)`, so the cache's list/array conversions are
the identity on the stored values. -/
abbrev EmbVec := List ℚ

/-- A persisted cache entry, a Python dict with `timestamp`, `chunks` and
`embeddings` keys; each field is optional because `get` checks key presence
on entries read back from disk. -/
structure CacheEntry where
  timestamp : Option Int
  chunks : Option (List (List Char))
  embeddings : Option (List EmbVec)
deriving DecidableEq, Repr

/-- The in-memory cache dict, `filename -> entry`, as an insertion-ordered
association list (Python dicts preserve insertion order). -/
abbrev CacheMap := List (String × CacheEntry)

/-- Python `cache[filename]` lookup as an `Option`. -/
def cache_lookup (c : CacheMap) (f : String) : Option CacheEntry :=
  (c.find? (fun kv => kv.1 = f)).map (fun kv => kv.2)

/-- Python `cache[filename] = entry`: overwrite in place when the key
exists, otherwise append. -/
def cache_insert (c : CacheMap) (f : String) (e : CacheEntry) : CacheMap :=
  if (c.find? (fun kv => kv.1 = f)).isSome then
    c.map (fun kv => if kv.1 = f then (f, e) else kv)
  else c ++ [(f, e)]

/-- Embedding of `EmbeddingsCache.get(filename, filepath)`.  The live
filesystem is the oracle `mtime : String → Option Int` standing for
`os.path.getmtime` (`none` = `OSError`).  Absent entry, unreadable mtime,
stale timestamp and structurally incomplete entries are all ordinary
misses; a hit returns the stored chunks and embeddings (the
`np.array(..., dtype=np.float32)` conversion is the identity here, see
`EmbVec`). -/
def embeddings_cache_get (cache : CacheMap) (mtime : String → Option Int)
    (filename filepath : String) : Option (List (List Char) × List EmbVec) :=
  match cache_lookup cache filename with
  | none => none
  | some entry =>
    match mtime filepath with
    | none => none
    | some current_timestamp =>
      if entry.timestamp ≠ some current_timestamp then none
      else
        match entry.chunks, entry.embeddings with
        | some cs, some es => some (cs, es)
        | _, _ => none

/-- Embedding of `EmbeddingsCache.set(filename, filepath, chunks,
embeddings)`: record the current modification time with the data;
when `os.path.getmtime` raises, return without storing. -/
def embeddings_cache_set (cache : CacheMap) (mtime : String → Option Int)
    (filename filepath : String) (chunks : List (List Char))
    (embeddings : List EmbVec) : CacheMap :=
  match mtime filepath with
  | none => cache
  | some ts => cache_insert cache filename ⟨some ts, some chunks, some embeddings⟩

/-- Embedding of `EmbeddingsCache.clean(existing_files)`: drop entries whose
source file no longer exists. -/
def embeddings_cache_clean (cache : CacheMap) (existing_files : List String) : CacheMap :=
  cache.filter (fun kv => existing_files.contains kv.1)

/-- Result of a Python call that may raise: `ok` a value, or `exn` with the
raised exception's name. -/
inductive PyResult (α : Type) where
  | ok (val : α)
  | exn (what : String)
deriving DecidableEq, Repr

/-- The state of the persisted cache file on disk, as seen by
`EmbeddingsCache.load`. -/
inductive CacheDisk where
  | absent
  | corrupted
  | truncated
  | invalidStructure
  | stored (m : CacheMap)
  | readError
deriving DecidableEq, Repr

/-- Embedding of `EmbeddingsCache.load(memory_dir)`: the returned boolean and
the resulting in-memory cache dict, or the raised exception.  A missing file,
a truncated file (`EOFError`), and a pickle that is not a dict all reset the
cache and return `True`; an unexpected read error resets and returns `False`;
a corrupted pickle (`pickle.UnpicklingError`) raises `CacheError`. -/
def embeddings_cache_load : CacheDisk → PyResult (Bool × CacheMap)
  | .absent => .ok (true, [])
  | .corrupted => .exn "CacheError"
  | .truncated => .ok (true, [])
  | .invalidStructure => .ok (true, [])
  | .stored m => .ok (true, m)
  | .readError => .ok (false, [])

/-- The state of the cache file's directory as seen by
`EmbeddingsCache.save`: writable, or failing with `PermissionError` /
`OSError` (both re-raised as `CacheError`) or an unexpected error
(returned as `False`). -/
inductive SaveDisk where
  | writable
  | permissionDenied
  | ioError
  | unexpectedError
deriving DecidableEq, Repr

/-- Embedding of `EmbeddingsCache.save(memory_dir)`. -/
def embeddings_cache_save : SaveDisk → PyResult Bool
  | .writable => .ok true
  | .permissionDenied => .exn "CacheError"
  | .ioError => .exn "CacheError"
  | .unexpectedError => .ok false

/-! ## `src/rag/manager.py`: `RAGManager` -/

/-- Per-chunk metadata: the source file of the chunk. -/
structure ChunkMeta where
  filename : String
  filepath : String
deriving DecidableEq, Repr

/-- The mutable fields of a `RAGManager`: the three parallel collections,
the `_loaded` flag, and the owned `EmbeddingsCache` contents. -/
structure RAGState where
  chunks : List (List Char)
  embeddings : Option (List EmbVec)
  chunk_metadata : List ChunkMeta
  loaded : Bool
  cache : CacheMap
deriving DecidableEq, Repr

/-- A fresh `RAGManager`'s state. -/
def initial_rag_state : RAGState :=
  ⟨[], none, [], false, []⟩

def MEMORY_DIR : String := "memory"

def SUPPORTED_EXTENSIONS : List String := [".md", ".txt"]

def EXCLUDED_FILES : List String :=
  ["README.md", "readme.md", "README.txt", "readme.txt"]

/-- Python `str.lower()`, character by character (kernel-reducible, unlike
`String.toLower`). -/
def pyLower (s : String) : String :=
  ⟨s.toList.map Char.toLower⟩

/-- The extension part of `os.path.splitext(filename)`: the suffix from the
last dot, except that leading dots of the name never begin an extension. -/
def splitext_ext (filename : String) : String :=
  let cs := filename.toList
  match ((List.range cs.length).filter (fun i => cs.get? i = some '.')).getLast? with
  | none => ""
  | some i =>
    if (List.range i).all (fun j => cs.get? j = some '.') then ""
    else ⟨cs.drop i⟩

/-- One directory entry of `os.listdir(memory_dir)` together with the
outcome of reading it (`read_text = none` embeds a raised I/O or decoding
error). -/
structure DirEntry where
  filename : String
  is_file : Bool
  read_text : Option (List Char)

/-- The world `RAGManager.load` runs against: the embedding model loading
outcome, the memory directory, its listing, the persisted cache state, the
filesystem's `os.path.getmtime` oracle, the batched
`EmbeddingModel.encode` collaborator (`none` = a raised error) and the
writability of the cache file. -/
structure LoadEnv where
  memory_dir : String
  model_load_ok : Bool
  dir_exists : Bool
  listing : List DirEntry
  cache_disk : CacheDisk
  mtime : String → Option Int
  encode : List (List Char) → Option (List EmbVec)
  save_disk : SaveDisk

/-- The loop-local accumulators of `RAGManager.load`'s directory scan. -/
structure LoadAcc where
  all_chunks : List (List Char)
  all_embeddings_list : List (List EmbVec)
  all_metadata : List ChunkMeta
  files_to_embed : List (String × String × Nat × Nat)
  chunks_to_embed : List (List Char)
  existing_files : List String

def empty_load_acc : LoadAcc :=
  ⟨[], [], [], [], [], []⟩

/-- One iteration of the `for filename in os.listdir(...)` loop of
`RAGManager.load`: skip non-files, excluded names and unsupported
extensions; on a cache hit extend the chunk, embedding-matrix and metadata
accumulators at once; on a miss read and chunk the file (a raised read
error or the `chunks[-1]` `IndexError` inside `chunk_text` is caught by the
per-file handler and skips the file) and queue its chunks for batched
embedding.  `chunk_text` is run with its in-code default parameters
`max_chars=800, overlap_chars=120` and fuel `text.length + 1`; with those
defaults every cut point advances the window start by at least 561
characters, so the fuel never runs out (the `outOfFuel` arm is dead and
conservatively skips the file). -/
def load_process_entry (memory_dir : String) (cache : CacheMap)
    (mtime : String → Option Int) (acc : LoadAcc) (f : DirEntry) : LoadAcc :=
  let filepath := memory_dir ++ "/" ++ f.filename
  if ¬ f.is_file then acc
  else if EXCLUDED_FILES.contains f.filename then acc
  else if ¬ SUPPORTED_EXTENSIONS.contains (pyLower (splitext_ext f.filename)) then acc
  else
    let acc := { acc with existing_files := acc.existing_files ++ [f.filename] }
    match embeddings_cache_get cache mtime f.filename filepath with
    | some (file_chunks, file_embeddings) =>
      { acc with
        all_chunks := acc.all_chunks ++ file_chunks
        all_embeddings_list := acc.all_embeddings_list ++ [file_embeddings]
        all_metadata := acc.all_metadata
          ++ file_chunks.map (fun _ => ⟨f.filename, filepath⟩) }
    | none =>
      match f.read_text with
      | none => acc
      | some text =>
        match chunk_text text 800 120 (text.length + 1) with
        | .ok [] => acc
        | .ok file_chunks =>
          { acc with
            all_chunks := acc.all_chunks ++ file_chunks
            chunks_to_embed := acc.chunks_to_embed ++ file_chunks
            files_to_embed := acc.files_to_embed
              ++ [(f.filename, filepath, acc.all_chunks.length, file_chunks.length)]
            all_metadata := acc.all_metadata
              ++ file_chunks.map (fun _ => ⟨f.filename, filepath⟩) }
        | .indexError => acc
        | .outOfFuel => acc

/-- The `for filename, filepath, start_idx, num_chunks in files_to_embed`
loop: slice the batch-encoded rows back per originating file, cache each
file's slice, and append it to the embedding-matrix list. -/
def load_embed_new (env : LoadEnv) (acc : LoadAcc) (new_embeddings : List EmbVec)
    (cache : CacheMap) : CacheMap × List (List EmbVec) :=
  let result := acc.files_to_embed.foldl
    (fun (s : CacheMap × List (List EmbVec) × Nat) fte =>
      let file_embeddings := (new_embeddings.drop s.2.2).take fte.2.2.2
      let file_chunks := (acc.all_chunks.drop fte.2.2.1).take fte.2.2.2
      (embeddings_cache_set s.1 env.mtime fte.1 fte.2.1 file_chunks file_embeddings,
       s.2.1 ++ [file_embeddings], s.2.2 + fte.2.2.2))
    (cache, acc.all_embeddings_list, 0)
  (result.1, result.2.1)

/-- Embedding of `RAGManager.load(show_progress)`: the resulting manager
state together with the returned boolean or the exception that escaped.
Control flow follows the source: model-load failure returns `False`; a
missing memory directory is created and returns `True`; the cache is loaded
(a `CacheError` from a corrupted pickle propagates out of `load`); the
directory is scanned; new chunks are batch-embedded (an embedding error
returns `False`); the three parallel collections and `_loaded` are
assigned; the cache is cleaned and saved (a `CacheError` from an unwritable
cache file propagates, after the in-memory index has already been
assigned). -/
def rag_load (env : LoadEnv) (st : RAGState) : RAGState × PyResult Bool :=
  if ¬ env.model_load_ok then (st, .ok false)
  else if ¬ env.dir_exists then (st, .ok true)
  else
    match embeddings_cache_load env.cache_disk with
    | .exn e => (st, .exn e)
    | .ok (_, loaded_cache) =>
      let st1 := { st with cache := loaded_cache }
      let acc := env.listing.foldl
        (load_process_entry env.memory_dir loaded_cache env.mtime) empty_load_acc
      if acc.all_chunks.isEmpty && acc.chunks_to_embed.isEmpty then
        let st2 := { st1 with cache := embeddings_cache_clean st1.cache acc.existing_files }
        match embeddings_cache_save env.save_disk with
        | .exn e => (st2, .exn e)
        | .ok _ => (st2, .ok true)
      else
        let embed_result : Option (CacheMap × List (List EmbVec)) :=
          if acc.chunks_to_embed.isEmpty then some (st1.cache, acc.all_embeddings_list)
          else
            match env.encode acc.chunks_to_embed with
            | none => none
            | some new_embeddings => some (load_embed_new env acc new_embeddings st1.cache)
        match embed_result with
        | none => (st1, .ok false)
        | some (cache2, all_embeddings_list) =>
          let st2 := { st1 with cache := cache2 }
          if ¬ all_embeddings_list.isEmpty then
            let st3 := { st2 with
              embeddings := some all_embeddings_list.flatten
              chunks := acc.all_chunks
              chunk_metadata := acc.all_metadata
              loaded := true }
            let st4 := { st3 with
              cache := embeddings_cache_clean st3.cache acc.existing_files }
            match embeddings_cache_save env.save_disk with
            | .exn e => (st4, .exn e)
            | .ok _ => (st4, .ok true)
          else (st2, .ok true)

/-- The collaborators `RAGManager.retrieve` calls: the query embedder
(`EmbeddingModel.encode_single`, `none` = a raised error), the
`cosine_similarity` computation (a numeric oracle, since its floating-point
result is only compared and ranked), and the token counter
`len(tokenizer.encode(chunk))` (`none` = a raised error). -/
structure RetrieveEnv where
  encode_single : List Char → Option EmbVec
  cos_sim : EmbVec → List EmbVec → List ℚ
  tokenizer_encode_len : List Char → Option Nat

/-- Stable insertion of index `i` into an ascending run of indices ordered
by their similarity values: `i` goes after every index whose value is at
most its own. -/
def insert_by_sim (sims : List ℚ) (i : Nat) : List Nat → List Nat
  | [] => [i]
  | j :: rest =>
    if sims.getD i 0 < sims.getD j 0 then i :: j :: rest
    else j :: insert_by_sim sims i rest

/-- Embedding of `np.argsort(similarities)`: the indices of the similarity
array, stably sorted by ascending value.  (On arrays of up to 16 elements
numpy's default sort is exactly a stable insertion sort; the development's
concrete inputs are all in that range.) -/
def argsort_asc (sims : List ℚ) : List Nat :=
  (List.range sims.length).foldl (fun acc i => insert_by_sim sims i acc) []

/-- Embedding of the numpy slice `arr[-top_k:]`.  Note Python's `-0 == 0`:
with `top_k = 0` the slice is `arr[0:]`, the whole array, and for
`top_k ≥ len` the negative index clamps to the start. -/
def np_tail_slice (l : List Nat) (k : Nat) : List Nat :=
  if k = 0 then l else l.drop (l.length - k)

/-- Embedding of the `for idx in top_indices` selection loop of
`RAGManager.retrieve`.  A chunk whose measured cost still fits is accepted;
a chunk that would overflow the budget is skipped (continuing down the
ranking) while the running total is below 80% of the budget, and otherwise
ends the loop.  `none` embeds an exception escaping the loop body — an
out-of-range chunk index, a raised tokenizer call, or the metadata lookup
in the debug log line — which `retrieve`'s handler turns into `("", 0)`.
The float comparison `total_tokens < max_tokens * 0.8` is embedded as the
exact integer comparison `5 * total_tokens < 4 * max_tokens`, with which it
agrees for every realistic budget (the two sides can only disagree when
`0.8 * max_tokens` computed in double precision is within one ulp of an
integer it does not equal, which first happens far beyond any usable token
budget). -/
def select_chunks (st : RAGState) (env : RetrieveEnv) (max_tokens : Nat) :
    List Nat → List (List Char) → Nat → Option (List (List Char) × Nat)
  | [], selected, total => some (selected, total)
  | idx :: rest, selected, total =>
    match st.chunks[idx]? with
    | none => none
    | some chunk =>
      match env.tokenizer_encode_len chunk with
      | none => none
      | some chunk_tokens =>
        if max_tokens < total + chunk_tokens then
          if 5 * total < 4 * max_tokens then
            select_chunks st env max_tokens rest selected total
          else some (selected, total)
        else
          match st.chunk_metadata[idx]? with
          | none => none
          | some _ =>
            select_chunks st env max_tokens rest (selected ++ [chunk]) (total + chunk_tokens)

/-- Embedding of `RAGManager.retrieve(query, tokenizer, max_tokens, top_k)`,
in state-passing form: the `(context, total_tokens)` pair and the manager
state after the call.  An unloaded or empty index returns `("", 0)`;
otherwise the query is embedded, similarities are ranked, the top-k indices
(descending) are walked under the budget, and the accepted chunks are
joined by blank lines; any exception inside the `try` yields `("", 0)`.
The source method only ever reads the manager's fields, so every branch
carries the input state through. -/
def rag_retrieve (st : RAGState) (env : RetrieveEnv) (query : List Char)
    (max_tokens top_k : Nat) : (List Char × Nat) × RAGState :=
  if ¬ st.loaded || st.chunks.isEmpty then (([], 0), st)
  else
    let attempt : Option (List Char × Nat) :=
      match env.encode_single query with
      | none => none
      | some query_embedding =>
        match st.embeddings with
        | none => none
        | some emb =>
          let similarities := env.cos_sim query_embedding emb
          let top_indices := (np_tail_slice (argsort_asc similarities) top_k).reverse
          match select_chunks st env max_tokens top_indices [] 0 with
          | none => none
          | some (selected, total) =>
            some (List.intercalate ['\n', '\n'] selected, total)
    match attempt with
    | some r => (r, st)
    | none => (([], 0), st)

/-! ## Concrete instances used by the claim theorems -/

/-- The `chunk_text` input on which the window start stops advancing. -/
def c5_text : List Char := "ab\n\ncdef\n\nwxyzuvwxyz".toList

/-- A two-message conversation: a system prompt and one user message. -/
def msgsC1 : List ChatMsg := [⟨"system", "s"⟩, ⟨"user", "hi"⟩]

/-- A tokenizer whose template always succeeds with the fixed prompt `"XX"`
and which measures every prompt at 5 tokens. -/
def tokC1 : ChatTemplateTok :=
  ⟨fun _ => some "XX", fun _ => some 5⟩

/-- A conversation with a system prompt and two ordinary user messages. -/
def msgsC8 : List ChatMsg := [⟨"system", "s"⟩, ⟨"user", "aaaa"⟩, ⟨"user", "b"⟩]

/-- A deterministic rendering of a message list, used as an injective
chat template. -/
def render_msgs (ms : List ChatMsg) : String :=
  String.join (ms.map (fun m => "(" ++ m.role ++ ":" ++ m.content ++ ")"))

/-- A tokenizer that renders messages with `render_msgs` and measures a
prompt by its character count. -/
def tokC8 : ChatTemplateTok :=
  ⟨fun ms => some (render_msgs ms), fun s => some s.length⟩

/-- A load environment whose persisted cache file is a corrupted pickle. -/
def envC2corrupt : LoadEnv :=
  { memory_dir := "memory", model_load_ok := true, dir_exists := true,
    listing := [], cache_disk := .corrupted,
    mtime := fun _ => none, encode := fun _ => none, save_disk := .writable }

/-- A load environment whose persisted cache file is truncated. -/
def envC2trunc : LoadEnv :=
  { memory_dir := "memory", model_load_ok := true, dir_exists := true,
    listing := [], cache_disk := .truncated,
    mtime := fun _ => none, encode := fun _ => none, save_disk := .writable }

/-- A load environment with one fresh eligible file whose cache directory
denies the final save. -/
def envC2save : LoadEnv :=
  { memory_dir := "memory", model_load_ok := true, dir_exists := true,
    listing := [⟨"fresh.md", true, some "hello".toList⟩], cache_disk := .absent,
    mtime := fun p => if p = "memory/fresh.md" then some 7 else none,
    encode := fun ts => some (ts.map (fun _ => [1])),
    save_disk := .permissionDenied }

/-- A valid persisted cache entry for `cached.md`: one chunk, one embedding
row `[2]`, timestamp 5. -/
def entryC6 : CacheEntry := ⟨some 5, some [['c', 'c']], some [[2]]⟩

/-- A load environment whose directory lists an uncached file `fresh.md`
before a cache-hit file `cached.md`; the fresh file's chunk embeds to
`[1]`. -/
def envC6 : LoadEnv :=
  { memory_dir := "memory", model_load_ok := true, dir_exists := true,
    listing := [⟨"fresh.md", true, some "hello".toList⟩, ⟨"cached.md", true, none⟩],
    cache_disk := .stored [("cached.md", entryC6)],
    mtime := fun p =>
      if p = "memory/cached.md" then some 5
      else if p = "memory/fresh.md" then some 7 else none,
    encode := fun ts => some (ts.map (fun _ => [1])),
    save_disk := .writable }

/-- A loaded index of five chunks (Scenario C of the spec). -/
def stC4 : RAGState :=
  { chunks := ["c0".toList, "c1".toList, "c2".toList, "c3".toList, "c4".toList],
    embeddings := some [[1], [1], [1], [1], [1]],
    chunk_metadata := [⟨"a.md", "memory/a.md"⟩, ⟨"a.md", "memory/a.md"⟩,
      ⟨"a.md", "memory/a.md"⟩, ⟨"a.md", "memory/a.md"⟩, ⟨"a.md", "memory/a.md"⟩],
    loaded := true, cache := [] }

/-- Retrieval collaborators producing the Scenario C similarity scores
`[0.9, 0.1, 0.5, 0.8, 0.3]`, with every chunk measuring one token. -/
def envC4 : RetrieveEnv :=
  { encode_single := fun _ => some [1],
    cos_sim := fun _ _ => [⟨9, 10, by norm_num, by norm_num⟩, ⟨1, 10, by norm_num, by norm_num⟩,
      ⟨1, 2, by norm_num, by norm_num⟩, ⟨4, 5, by norm_num, by norm_num⟩,
      ⟨3, 10, by norm_num, by norm_num⟩],
    tokenizer_encode_len := fun _ => some 1 }

/-- A loaded index of two chunks used for the similarity-tie instance. -/
def stC4tie : RAGState :=
  { chunks := ["d0".toList, "d1".toList],
    embeddings := some [[1], [1]],
    chunk_metadata := [⟨"a.md", "memory/a.md"⟩, ⟨"a.md", "memory/a.md"⟩],
    loaded := true, cache := [] }

/-- Retrieval collaborators giving the two chunks the same similarity. -/
def envC4tie : RetrieveEnv :=
  { encode_single := fun _ => some [1],
    cos_sim := fun _ _ => [⟨1, 2, by norm_num, by norm_num⟩, ⟨1, 2, by norm_num, by norm_num⟩],
    tokenizer_encode_len := fun _ => some 1 }

/-- A loaded one-chunk index for the budget-discipline witness. -/
def stC3 : RAGState :=
  { chunks := ["aa".toList],
    embeddings := some [[1]],
    chunk_metadata := [⟨"a.md", "memory/a.md"⟩],
    loaded := true, cache := [] }

/-- Retrieval collaborators for the budget-discipline witness: one
similarity score, three tokens per chunk. -/
def envC3 : RetrieveEnv :=
  { encode_single := fun _ => some [1],
    cos_sim := fun _ _ => [⟨1, 2, by norm_num, by norm_num⟩],
    tokenizer_encode_len := fun _ => some 3 }

/-! ## Helper lemmas -/

/-- A successful guarded template-then-measure attempt determines both
collaborator results. -/
theorem try_template_count_some (tok : ChatTemplateTok) (msgs : List ChatMsg)
    (p : String) (n : Nat) (h : try_template_count tok msgs = some (p, n)) :
    tok.apply_chat_template msgs = some p ∧ tok.count_tokens p = some n := by
  unfold try_template_count at h
  cases hap : tok.apply_chat_template msgs with
  | none => simp [hap] at h
  | some p' =>
    simp only [hap] at h
    cases hct : tok.count_tokens p' with
    | none => simp [hct] at h
    | some n' =>
      simp only [hct, Option.some.injEq, Prod.mk.injEq] at h
      obtain ⟨rfl, rfl⟩ := h
      exact ⟨rfl, hct⟩

/-- A prompt returned from inside the pruning loop measured strictly below
the maximum length. -/
theorem prune_loop_some_fits (tok : ChatTemplateTok) (max_length np : Nat) :
    ∀ (fuel : Nat) (pruned : List ChatMsg) (p : String) (l : List ChatMsg),
      prune_messages_loop tok max_length np fuel pruned = (some p, l) →
      ∃ n, tok.count_tokens p = some n ∧ n < max_length := by
  intro fuel
  induction fuel with
  | zero =>
    intro pruned p l h
    exact absurd h (by simp [prune_messages_loop])
  | succ f ih =>
    intro pruned p l h
    simp only [prune_messages_loop] at h
    split at h
    · split at h
      · next p' n' htt =>
        split at h
        · next hn =>
          simp only [Prod.mk.injEq, Option.some.injEq] at h
          obtain ⟨rfl, -⟩ := h
          exact ⟨n', (try_template_count_some tok pruned p' n' htt).2, hn⟩
        · exact ih _ _ _ h
      · exact ih _ _ _ h
    · exact absurd h (by simp)

/-- The pruning loop only ever removes messages at index `np` and beyond:
its final message list is the pinned prefix `pruned.take np` followed by a
suffix of the remaining messages. -/
theorem prune_loop_tail (tok : ChatTemplateTok) (max_length np : Nat) :
    ∀ (fuel : Nat) (pruned : List ChatMsg),
      ∃ k, (prune_messages_loop tok max_length np fuel pruned).2
        = pruned.take np ++ pruned.drop (np + k) := by
  intro fuel
  induction fuel with
  | zero =>
    intro pruned
    exact ⟨0, by simp [prune_messages_loop]⟩
  | succ f ih =>
    intro pruned
    simp only [prune_messages_loop]
    split
    · next hl =>
      have hlen : (pruned.take np).length = np := by
        simp [List.length_take]
        omega
      split
      · next p' n' htt =>
        split
        · exact ⟨0, by simp⟩
        · obtain ⟨k, hk⟩ := ih (pruned.take np ++ pruned.drop (np + 1))
          refine ⟨k + 1, ?_⟩
          rw [hk]
          rw [List.take_left' hlen]
          have hd : (pruned.take np ++ pruned.drop (np + 1)).drop (np + k)
              = (pruned.drop (np + 1)).drop k := by
            rw [← List.drop_drop, List.drop_left' hlen]
          rw [hd, List.drop_drop]
          have harith : np + 1 + k = np + (k + 1) := by omega
          rw [harith]
      · obtain ⟨k, hk⟩ := ih (pruned.take np ++ pruned.drop (np + 1))
        refine ⟨k + 1, ?_⟩
        rw [hk]
        rw [List.take_left' hlen]
        have hd : (pruned.take np ++ pruned.drop (np + 1)).drop (np + k)
            = (pruned.drop (np + 1)).drop k := by
          rw [← List.drop_drop, List.drop_left' hlen]
        rw [hd, List.drop_drop]
        have harith : np + 1 + k = np + (k + 1) := by omega
        rw [harith]
    · exact ⟨0, by simp⟩

/-- Python dict assignment on an association list, cons case for a
non-matching head key. -/
theorem cache_insert_cons_ne (kv : String × CacheEntry) (rest : CacheMap) (f : String)
    (e : CacheEntry) (h : ¬ kv.1 = f) :
    cache_insert (kv :: rest) f e = kv :: cache_insert rest f e := by
  unfold cache_insert
  rw [List.find?_cons]
  rw [show (decide (kv.1 = f)) = false from by simp [h]]
  by_cases hs : (List.find? (fun kv => decide (kv.1 = f)) rest).isSome = true
  · simp [hs, h]
  · simp [hs, h]

/-- Looking up a key right after storing it retrieves the stored entry. -/
theorem cache_lookup_insert (c : CacheMap) (f : String) (e : CacheEntry) :
    cache_lookup (cache_insert c f e) f = some e := by
  induction c with
  | nil => simp [cache_insert, cache_lookup]
  | cons kv rest ih =>
    by_cases h : kv.1 = f
    · unfold cache_insert cache_lookup
      simp [List.find?_cons, h]
    · rw [cache_insert_cons_ne kv rest f e h]
      unfold cache_lookup
      simp only [List.find?_cons, decide_eq_true_eq, h, if_neg h]
      exact ih

/-- The running token total of the retrieval selection loop never exceeds
the budget: a candidate is only accepted when the new total stays within
it. -/
theorem select_chunks_le (st : RAGState) (env : RetrieveEnv) (max_tokens : Nat) :
    ∀ (cands : List Nat) (sel : List (List Char)) (tot : Nat), tot ≤ max_tokens →
      ∀ (sel' : List (List Char)) (tot' : Nat),
        select_chunks st env max_tokens cands sel tot = some (sel', tot') →
        tot' ≤ max_tokens := by
  intro cands
  induction cands with
  | nil =>
    intro sel tot h sel' tot' he
    simp only [select_chunks, Option.some.injEq, Prod.mk.injEq] at he
    obtain ⟨-, rfl⟩ := he
    exact h
  | cons idx rest ih =>
    intro sel tot h sel' tot' he
    simp only [select_chunks] at he
    cases hcg : st.chunks[idx]? with
    | none => simp [hcg] at he
    | some chunk =>
      simp only [hcg] at he
      cases hte : env.tokenizer_encode_len chunk with
      | none => simp [hte] at he
      | some ct =>
        simp only [hte] at he
        split at he
        · split at he
          · exact ih _ _ h _ _ he
          · simp only [Option.some.injEq, Prod.mk.injEq] at he
            obtain ⟨-, rfl⟩ := he
            exact h
        · next hfit =>
          cases hmd : st.chunk_metadata[idx]? with
          | none => simp [hmd] at he
          | some m =>
            simp only [hmd] at he
            exact ih _ _ (by omega) _ _ he

/-- Every element of a stable similarity insertion is the inserted index or
an element of the original run. -/
theorem insert_by_sim_mem (sims : List ℚ) (i : Nat) :
    ∀ (acc : List Nat) (x : Nat), x ∈ insert_by_sim sims i acc → x = i ∨ x ∈ acc := by
  intro acc
  induction acc with
  | nil =>
    intro x hx
    simp [insert_by_sim] at hx
    exact Or.inl hx
  | cons j rest ih =>
    intro x hx
    simp only [insert_by_sim] at hx
    split at hx
    · rcases List.mem_cons.mp hx with rfl | hx'
      · exact Or.inl rfl
      · exact Or.inr hx'
    · rcases List.mem_cons.mp hx with rfl | hx'
      · exact Or.inr (List.mem_cons_self _ _)
      · rcases ih x hx' with h' | h'
        · exact Or.inl h'
        · exact Or.inr (List.mem_cons_of_mem _ h')

/-- Stable insertion preserves ascending order by similarity value. -/
theorem insert_by_sim_pairwise (sims : List ℚ) (i : Nat) :
    ∀ acc : List Nat,
      acc.Pairwise (fun a b => sims.getD a 0 ≤ sims.getD b 0) →
      (insert_by_sim sims i acc).Pairwise (fun a b => sims.getD a 0 ≤ sims.getD b 0) := by
  intro acc
  induction acc with
  | nil => intro _; simp [insert_by_sim]
  | cons j rest ih =>
    intro hp
    simp only [insert_by_sim]
    split
    · next hlt =>
      refine List.Pairwise.cons ?_ hp
      intro x hx
      rcases List.mem_cons.mp hx with rfl | hx'
      · exact le_of_lt hlt
      · exact le_trans (le_of_lt hlt) (List.rel_of_pairwise_cons hp hx')
    · next hge =>
      refine List.Pairwise.cons ?_ (ih (List.Pairwise.of_cons hp))
      intro x hx
      rcases insert_by_sim_mem sims i rest x hx with rfl | hx'
      · exact not_lt.mp hge
      · exact List.rel_of_pairwise_cons hp hx'

/-- The argsort fold keeps the accumulated index run ascending. -/
theorem argsort_aux_pairwise (sims : List ℚ) :
    ∀ (l : List Nat) (acc : List Nat),
      acc.Pairwise (fun a b => sims.getD a 0 ≤ sims.getD b 0) →
      (l.foldl (fun acc i => insert_by_sim sims i acc) acc).Pairwise
        (fun a b => sims.getD a 0 ≤ sims.getD b 0) := by
  intro l
  induction l with
  | nil => intro acc h; simpa using h
  | cons i l' ih =>
    intro acc h
    exact ih _ (insert_by_sim_pairwise sims i acc h)

/-- `argsort_asc` sorts the indices by ascending similarity value. -/
theorem argsort_asc_pairwise (sims : List ℚ) :
    (argsort_asc sims).Pairwise (fun a b => sims.getD a 0 ≤ sims.getD b 0) :=
  argsort_aux_pairwise sims (List.range sims.length) [] (by simp)

/-- Stable insertion permutes the inserted index onto the run. -/
theorem insert_by_sim_perm (sims : List ℚ) (i : Nat) :
    ∀ acc : List Nat, (insert_by_sim sims i acc).Perm (i :: acc) := by
  intro acc
  induction acc with
  | nil => simp [insert_by_sim]
  | cons j rest ih =>
    simp only [insert_by_sim]
    split
    · exact List.Perm.refl _
    · exact (List.Perm.cons j ih).trans (List.Perm.swap i j rest)

/-- The argsort fold permutes the processed indices onto the accumulator. -/
theorem argsort_aux_perm (sims : List ℚ) :
    ∀ (l : List Nat) (acc : List Nat),
      (l.foldl (fun acc i => insert_by_sim sims i acc) acc).Perm (l ++ acc) := by
  intro l
  induction l with
  | nil => intro acc; simp
  | cons i l' ih =>
    intro acc
    refine (ih (insert_by_sim sims i acc)).trans ?_
    refine (List.Perm.append_left l' (insert_by_sim_perm sims i acc)).trans ?_
    exact List.perm_middle

/-- `argsort_asc` is a permutation of all the indices of the similarity
array. -/
theorem argsort_asc_perm (sims : List ℚ) :
    (argsort_asc sims).Perm (List.range sims.length) := by
  have h := argsort_aux_perm sims (List.range sims.length) []
  simpa using h

/-- On `c5_text` with `max_chars = 4` and `overlap_chars = 6`, one loop
iteration from window start 4 appends the chunk `"cdef"` and computes the
next start as `10 - 6 = 4` again: the guard compares it against
`chunks[-1].find(chunk) = 0` and leaves it unchanged. -/
theorem c5_step (f : Nat) (chunks : List (List Char)) :
    chunk_text_loop c5_text 4 6 (f + 1) 4 chunks
      = chunk_text_loop c5_text 4 6 f 4 (chunks ++ ["cdef".toList]) := by
  simp only [chunk_text_loop]
  rw [if_pos (by decide : 4 < c5_text.length)]
  rw [if_neg (by decide : ¬ (4 + 4 ≥ c5_text.length))]
  rw [show pyStrip (pySlice c5_text 4 (find_break_point c5_text 4 (4 + 4) 6)) = "cdef".toList from by decide]
  rw [if_neg (by decide : ¬ (("cdef".toList : List Char).isEmpty = true))]
  rw [List.getLast?_concat _]
  rw [show find_break_point c5_text 4 (4 + 4) 6 = 10 from by decide]
  rfl

/-- From window start 4 on `c5_text`, the chunking loop exhausts any amount
of fuel: the start never advances again. -/
theorem c5_loop_stuck : ∀ (f : Nat) (chunks : List (List Char)),
    chunk_text_loop c5_text 4 6 f 4 chunks = ChunkOutcome.outOfFuel := by
  intro f
  induction f with
  | zero => intro chunks; rfl
  | succ n ih => intro chunks; rw [c5_step]; exact ih _

/-! ## Claim theorems -/

/-- C1: refuted as stated.  With a tokenizer whose template always succeeds
with the prompt `"XX"` measured at 5 tokens and a maximum length of 1,
`prepare_prompt` returns `"XX"`: a result that does not fit the caller's
maximum length as measured by the tokenizer and that is not the manual
role-tagged fallback template either — the minimal pinned-prefix-plus-last
attempt is returned without any length check. -/
theorem c1_counterexample :
    prepare_prompt msgsC1 tokC1 1 none = "XX"
    ∧ tokC1.count_tokens "XX" = some 5
    ∧ ¬ (5 ≤ 1)
    ∧ manual_format (build_messages_with_rag msgsC1 none) (num_preserved none) msgsC1 ≠ "XX" := by
  decide

/-- C1 (amended): for every message list, tokenizer collaborator, maximum
length and retrieval context, `prepare_prompt` returns either a prompt the
tokenizer measures within the maximum length, or the successfully templated
minimal form (pinned prefix plus most recent message) whose size is never
checked, or — exactly when that final templating call fails — the manual
role-tagged fallback template. -/
theorem c1_amended (messages : List ChatMsg) (tok : ChatTemplateTok)
    (max_length : Nat) (rag_context : Option String) :
    (∃ n, tok.count_tokens (prepare_prompt messages tok max_length rag_context) = some n
        ∧ n ≤ max_length)
    ∨ tok.apply_chat_template (minimal_messages messages rag_context)
        = some (prepare_prompt messages tok max_length rag_context)
    ∨ (tok.apply_chat_template (minimal_messages messages rag_context) = none
        ∧ prepare_prompt messages tok max_length rag_context
          = manual_format (build_messages_with_rag messages rag_context)
              (num_preserved rag_context) messages) := by
  simp only [prepare_prompt]
  cases htt : try_template_count tok (build_messages_with_rag messages rag_context) with
  | some pn =>
    obtain ⟨p, n⟩ := pn
    obtain ⟨hap, hct⟩ := try_template_count_some tok _ p n htt
    by_cases hn : n ≤ max_length
    · simp only [htt, if_pos hn]
      exact Or.inl ⟨n, hct, hn⟩
    · simp only [htt, if_neg hn]
      cases hpr : prune_messages tok max_length (num_preserved rag_context)
          (build_messages_with_rag messages rag_context) with
      | mk o l =>
        cases o with
        | some p' =>
          obtain ⟨m, hm, hmlt⟩ := prune_loop_some_fits tok max_length
            (num_preserved rag_context) _ _ _ _ hpr
          exact Or.inl ⟨m, hm, Nat.le_of_lt hmlt⟩
        | none =>
          cases ham : tok.apply_chat_template (minimal_messages messages rag_context) with
          | some q => exact Or.inr (Or.inl rfl)
          | none => exact Or.inr (Or.inr ⟨rfl, rfl⟩)
  | none =>
    simp only [htt]
    cases hpr : prune_messages tok max_length (num_preserved rag_context)
        (build_messages_with_rag messages rag_context) with
    | mk o l =>
      cases o with
      | some p' =>
        obtain ⟨m, hm, hmlt⟩ := prune_loop_some_fits tok max_length
          (num_preserved rag_context) _ _ _ _ hpr
        exact Or.inl ⟨m, hm, Nat.le_of_lt hmlt⟩
      | none =>
        cases ham : tok.apply_chat_template (minimal_messages messages rag_context) with
        | some q => exact Or.inr (Or.inl rfl)
        | none => exact Or.inr (Or.inr ⟨rfl, rfl⟩)

/-- C2: refuted as stated.  With the persisted cache file a corrupted
pickle, `RAGManager.load` does not convert the failure into a boolean
result: the `CacheError` raised by `EmbeddingsCache.load` propagates out of
`load`, which therefore returns no boolean at all. -/
theorem c2_counterexample :
    (rag_load envC2corrupt initial_rag_state).2 = PyResult.exn "CacheError"
    ∧ (∀ b : Bool, (rag_load envC2corrupt initial_rag_state).2 ≠ PyResult.ok b) := by
  decide

/-- C2 (amended): a corrupted persisted cache makes `load()` raise
`CacheError` with the manager state untouched; a truncated cache file is
converted into a boolean success; a cache save failure after a fresh index
build also raises `CacheError` out of `load()`, but only after the
in-memory index has been assigned — the built index (loaded flag, chunks,
embeddings) survives the save failure. -/
theorem c2_amended :
    rag_load envC2corrupt initial_rag_state = (initial_rag_state, PyResult.exn "CacheError")
    ∧ (rag_load envC2trunc initial_rag_state).2 = PyResult.ok true
    ∧ (rag_load envC2save initial_rag_state).2 = PyResult.exn "CacheError"
    ∧ (rag_load envC2save initial_rag_state).1.loaded = true
    ∧ (rag_load envC2save initial_rag_state).1.chunks = ["hello".toList]
    ∧ (rag_load envC2save initial_rag_state).1.embeddings = some [[1]] := by
  decide

/-- C3: the total token count returned by `retrieve` never exceeds the
budget — unconditionally, hence in particular outside the documented
80%-threshold case — and the selection loop accepts a candidate exactly
when the accumulated cost stays within the budget, skips an overflowing
candidate and continues down the ranking while the accumulated total is
below 80% of the budget, and otherwise stops accepting. -/
theorem c3_budget_discipline :
    (∀ (st : RAGState) (env : RetrieveEnv) (query : List Char) (max_tokens top_k : Nat),
      (rag_retrieve st env query max_tokens top_k).1.2 ≤ max_tokens)
    ∧ (∀ (st : RAGState) (env : RetrieveEnv) (max_tokens idx : Nat)
        (rest : List Nat) (sel : List (List Char)) (tot : Nat)
        (chunk : List Char) (ct : Nat),
        st.chunks[idx]? = some chunk →
        env.tokenizer_encode_len chunk = some ct →
        (max_tokens < tot + ct → 5 * tot < 4 * max_tokens →
          select_chunks st env max_tokens (idx :: rest) sel tot
            = select_chunks st env max_tokens rest sel tot)
        ∧ (max_tokens < tot + ct → ¬ (5 * tot < 4 * max_tokens) →
          select_chunks st env max_tokens (idx :: rest) sel tot = some (sel, tot))
        ∧ (∀ m : ChunkMeta, tot + ct ≤ max_tokens →
            st.chunk_metadata[idx]? = some m →
            select_chunks st env max_tokens (idx :: rest) sel tot
              = select_chunks st env max_tokens rest (sel ++ [chunk]) (tot + ct))) := by
  constructor
  · intro st env query max_tokens top_k
    unfold rag_retrieve
    split
    · simp
    · dsimp only
      cases hen : env.encode_single query with
      | none => simp
      | some qe =>
        dsimp only
        cases hemb : st.embeddings with
        | none => simp
        | some emb =>
          dsimp only
          cases hsel : select_chunks st env max_tokens
              ((np_tail_slice (argsort_asc (env.cos_sim qe emb)) top_k).reverse) [] 0 with
          | none => simp
          | some pr =>
            obtain ⟨selected, total⟩ := pr
            have hle := select_chunks_le st env max_tokens _ [] 0
              (Nat.zero_le max_tokens) selected total hsel
            simpa using hle
  · intro st env max_tokens idx rest sel tot chunk ct hcg hte
    refine ⟨?_, ?_, ?_⟩
    · intro h1 h2
      simp only [select_chunks, hcg, hte, if_pos h1, if_pos h2]
    · intro h1 h2
      simp only [select_chunks, hcg, hte, if_pos h1, if_neg h2]
    · intro m h1 hmd
      simp only [select_chunks, hcg, hte, if_neg (by omega : ¬ max_tokens < tot + ct), hmd]

/-- C3 (witness): with a one-chunk index whose chunk costs 3 tokens, a
budget of 2 is respected (the overflowing candidate is skipped at total 0,
which is below 80% of budget), the loop stops when the total has reached
the threshold, and a budget of 10 accepts the chunk. -/
theorem c3_budget_discipline_witness :
    (rag_retrieve stC3 envC3 "q".toList 2 1).1.2 ≤ 2
    ∧ select_chunks stC3 envC3 2 [0] [] 0 = select_chunks stC3 envC3 2 [] [] 0
    ∧ select_chunks stC3 envC3 2 [0] [] 2 = some ([], 2)
    ∧ select_chunks stC3 envC3 10 [0] [] 0
        = select_chunks stC3 envC3 10 [] ["aa".toList] (0 + 3) := by
  refine ⟨c3_budget_discipline.1 stC3 envC3 "q".toList 2 1, ?_, ?_, ?_⟩
  · exact (c3_budget_discipline.2 stC3 envC3 2 0 [] [] 0 "aa".toList 3
      (by decide) (by decide)).1 (by decide) (by decide)
  · exact (c3_budget_discipline.2 stC3 envC3 2 0 [] [] 2 "aa".toList 3
      (by decide) (by decide)).2.1 (by decide) (by decide)
  · exact (c3_budget_discipline.2 stC3 envC3 10 0 [] [] 0 "aa".toList 3
      (by decide) (by decide)).2.2 ⟨"a.md", "memory/a.md"⟩ (by decide) (by decide)

/-- C4: refuted as stated on the tie-breaking clause.  With two chunks of
equal similarity 1/2 and ample budget, `retrieve` returns chunk 1 before
chunk 0: `np.argsort` ranks ascending and the reversal puts ties in
reverse original index order, not original index order as a stable
descending sort would. -/
theorem c4_tie_counterexample :
    envC4tie.cos_sim [1] [[1], [1]]
      = [⟨1, 2, by norm_num, by norm_num⟩, ⟨1, 2, by norm_num, by norm_num⟩]
    ∧ (⟨1, 2, by norm_num, by norm_num⟩ : ℚ) = 1/2
    ∧ (rag_retrieve stC4tie envC4tie "q".toList 100 2).1.1 = "d1\n\nd0".toList
    ∧ stC4tie.chunks[0]? = some "d0".toList
    ∧ stC4tie.chunks[1]? = some "d1".toList
    ∧ "d1\n\nd0".toList ≠ "d0\n\nd1".toList := by
  refine ⟨by decide, by rw [Rat.mk'_eq_divInt, Rat.divInt_eq_div]; norm_num,
    by decide, by decide, by decide, by decide⟩

/-- C4 (amended): the candidate ranking is a permutation of all chunk
indices walked in descending-similarity order, with ties among equal
scores in reverse original index order (ascending argsort then reversal);
for 5 chunks with similarities [0.9, 0.1, 0.5, 0.8, 0.3], `top_k = 2` and
ample budget, `retrieve` returns exactly the chunks scoring 0.9 and 0.8 in
that order; for equal scores the later chunk comes first. -/
theorem c4_amended :
    (∀ (sims : List ℚ) (top_k : Nat),
      ((np_tail_slice (argsort_asc sims) top_k).reverse).Pairwise
        (fun i j => sims.getD j 0 ≤ sims.getD i 0)
      ∧ (argsort_asc sims).Perm (List.range sims.length))
    ∧ envC4.cos_sim [1] [[1], [1], [1], [1], [1]]
        = [⟨9, 10, by norm_num, by norm_num⟩, ⟨1, 10, by norm_num, by norm_num⟩,
           ⟨1, 2, by norm_num, by norm_num⟩, ⟨4, 5, by norm_num, by norm_num⟩,
           ⟨3, 10, by norm_num, by norm_num⟩]
    ∧ ([⟨9, 10, by norm_num, by norm_num⟩, ⟨1, 10, by norm_num, by norm_num⟩,
        ⟨1, 2, by norm_num, by norm_num⟩, ⟨4, 5, by norm_num, by norm_num⟩,
        ⟨3, 10, by norm_num, by norm_num⟩] : List ℚ)
        = [9/10, 1/10, 5/10, 8/10, 3/10]
    ∧ (rag_retrieve stC4 envC4 "q".toList 100 2).1 = ("c0\n\nc3".toList, 2)
    ∧ (rag_retrieve stC4tie envC4tie "q".toList 100 2).1 = ("d1\n\nd0".toList, 2) := by
  refine ⟨?_, by decide, by simp only [Rat.mk'_eq_divInt, Rat.divInt_eq_div]; norm_num,
    by decide, by decide⟩
  intro sims top_k
  constructor
  · rw [List.pairwise_reverse]
    have hbase := argsort_asc_pairwise sims
    unfold np_tail_slice
    split
    · exact hbase
    · exact List.Pairwise.sublist (List.drop_sublist _ _) hbase
  · exact argsort_asc_perm sims

/-- C5: the claim's termination guarantee fails on the code.  On the input
`"ab\n\ncdef\n\nwxyzuvwxyz"` with `max_chars = 4 > 0` and
`overlap_chars = 6 ≥ 0`, the `chunk_text` loop returns to window start 4
after every iteration (cut point 10, next start 10 − 6 = 4, and the guard
compares against `chunks[-1].find(chunk) = 0` instead of the previous cut
point), so no amount of fuel completes the loop: `chunk_text` never
terminates on this input. -/
theorem c5_nontermination (fuel : Nat) :
    chunk_text c5_text 4 6 fuel = ChunkOutcome.outOfFuel := by
  cases fuel with
  | zero => decide
  | succ f =>
    have h1 : chunk_text c5_text 4 6 (f + 1)
        = chunk_text_loop c5_text 4 6 (f + 1) 0 [] := by
      rw [chunk_text]
      rw [if_neg (by decide : ¬ ((c5_text.isEmpty || (pyStrip c5_text).isEmpty) = true))]
    have h2 : chunk_text_loop c5_text 4 6 (f + 1) 0 []
        = chunk_text_loop c5_text 4 6 f 4 ["ab\n\ncdef".toList] := by rfl
    rw [h1, h2, c5_loop_stuck]

/-- C6: the parallel-collections invariant fails on the code.  In a
directory whose listing has the uncached file `fresh.md` before the
cache-hit file `cached.md`, a successful `load()` produces chunks in
listing order (`fresh` then `cached`) but embedding rows in
cached-files-first order: row 0 is the cached file's vector `[2]` while
chunk 0 is the fresh file's text, because cached matrices are appended
during the scan and freshly embedded ones only after it.  The lengths
still agree; the order does not. -/
theorem c6_misalignment :
    (rag_load envC6 initial_rag_state).2 = PyResult.ok true
    ∧ (rag_load envC6 initial_rag_state).1.loaded = true
    ∧ (rag_load envC6 initial_rag_state).1.chunks = ["hello".toList, ['c', 'c']]
    ∧ (rag_load envC6 initial_rag_state).1.chunk_metadata
        = [⟨"fresh.md", "memory/fresh.md"⟩, ⟨"cached.md", "memory/cached.md"⟩]
    ∧ (rag_load envC6 initial_rag_state).1.embeddings = some [[2], [1]]
    ∧ entryC6.chunks = some [['c', 'c']]
    ∧ entryC6.embeddings = some [[2]]
    ∧ (rag_load envC6 initial_rag_state).1.chunks.length
        = ((rag_load envC6 initial_rag_state).1.embeddings.getD []).length := by
  decide

/-- C7: `get` after `set` on an unmodified file (same modification time)
returns exactly the stored chunks and embeddings — the list/float32-array
conversions are the identity on the stored values — and once the
modification time has changed, `get` returns a miss (`none`), never an
exception. -/
theorem c7_cache_get_set (cache : CacheMap) (m1 m2 : String → Option Int)
    (f p : String) (cs : List (List Char)) (es : List EmbVec) (t t' : Int)
    (h1 : m1 p = some t) (h2 : m2 p = some t') :
    (t' = t →
      embeddings_cache_get (embeddings_cache_set cache m1 f p cs es) m2 f p = some (cs, es))
    ∧ (t' ≠ t →
      embeddings_cache_get (embeddings_cache_set cache m1 f p cs es) m2 f p = none) := by
  unfold embeddings_cache_set embeddings_cache_get
  rw [h1]
  rw [cache_lookup_insert]
  rw [h2]
  constructor
  · intro heq
    subst heq
    simp
  · intro hne
    simp [Ne.symm hne]

/-- C7 (witness): storing under timestamp 3 and reading back under
timestamp 3 returns the stored data; reading back under timestamp 4
misses. -/
theorem c7_cache_get_set_witness :
    embeddings_cache_get
        (embeddings_cache_set [] (fun _ => some 3) "f" "p" [['a']] [[1]])
        (fun _ => some 3) "f" "p" = some ([['a']], [[1]])
    ∧ embeddings_cache_get
        (embeddings_cache_set [] (fun _ => some 3) "f" "p" [['a']] [[1]])
        (fun _ => some 4) "f" "p" = none := by
  exact ⟨(c7_cache_get_set [] (fun _ => some 3) (fun _ => some 3) "f" "p" [['a']] [[1]] 3 3
            rfl rfl).1 rfl,
         (c7_cache_get_set [] (fun _ => some 3) (fun _ => some 4) "f" "p" [['a']] [[1]] 3 4
            rfl rfl).2 (by decide)⟩

/-- C8: refuted as stated.  A whitespace-only retrieval context `" "` is a
non-empty Python string, so `num_preserved` pins two messages, yet
`_build_messages_with_rag` injects nothing (it strips the context), so
position 1 holds an ordinary `user` chat message which the pruning loop
then treats as pinned: pruning the three-message conversation removes the
newer message `"b"` and keeps the older ordinary message `"aaaa"`, and the
returned prompt still carries it. -/
theorem c8_counterexample :
    num_preserved (some " ") = 2
    ∧ build_messages_with_rag msgsC8 (some " ") = msgsC8
    ∧ (msgsC8.get? 1).map ChatMsg.role = some "user"
    ∧ prune_messages tokC8 1 (num_preserved (some " ")) msgsC8
        = (none, [⟨"system", "s"⟩, ⟨"user", "aaaa"⟩])
    ∧ prepare_prompt msgsC8 tokC8 1 (some " ") = "(system:s)(user:aaaa)(user:b)" := by
  decide

/-- C8 (amended): two messages are preserved exactly when the retrieval
context is a non-empty string — including a whitespace-only one, in which
case no retrieval block is injected and the ordinary message at position 1
is pinned instead; when the context has non-whitespace content it is
injected as message 1 after a leading system prompt; pruning only ever
drops messages at indices at or beyond the preserved count, leaving the
pinned prefix plus a suffix of the chat history, and message 0 is never
removed. -/
theorem c8_amended :
    (∀ rag : Option String, num_preserved rag = 2 ↔ ∃ r, rag = some r ∧ r ≠ "")
    ∧ (∀ (r : String) (m0 : ChatMsg) (rest : List ChatMsg),
        pyStripS r ≠ "" → m0.role = "system" →
        build_messages_with_rag (m0 :: rest) (some r) = m0 :: rag_block r :: rest)
    ∧ (∀ (tok : ChatTemplateTok) (max_length np : Nat) (pruned : List ChatMsg),
        ∃ k, (prune_messages tok max_length np pruned).2
          = pruned.take np ++ pruned.drop (np + k))
    ∧ (∀ (tok : ChatTemplateTok) (max_length : Nat) (rag : Option String)
        (pruned : List ChatMsg),
        (prune_messages tok max_length (num_preserved rag) pruned).2.head?
          = pruned.head?) := by
  refine ⟨?_, ?_, ?_, ?_⟩
  · intro rag
    cases rag with
    | none => simp [num_preserved]
    | some r =>
      by_cases hr : r = ""
      · simp [num_preserved, hr]
      · simp [num_preserved, hr]
  · intro r m0 rest hs hrole
    have hr : ¬ r = "" := by
      intro hcontra
      exact hs (by rw [hcontra]; rfl)
    simp [build_messages_with_rag, hr, hs, hrole]
  · intro tok max_length np pruned
    exact prune_loop_tail tok max_length np pruned.length pruned
  · intro tok max_length rag pruned
    have hnp : num_preserved rag = 1 ∨ num_preserved rag = 2 := by
      cases rag with
      | none => exact Or.inl rfl
      | some r =>
        by_cases hr : r = ""
        · exact Or.inl (by simp [num_preserved, hr])
        · exact Or.inr (by simp [num_preserved, hr])
    obtain ⟨k, hk⟩ := prune_loop_tail tok max_length (num_preserved rag)
      pruned.length pruned
    cases pruned with
    | nil =>
      rw [show prune_messages tok max_length (num_preserved rag) [] = (none, []) from rfl]
    | cons m0 rest =>
      unfold prune_messages
      rw [hk]
      cases hnp with
      | inl h1 => rw [h1]; simp [List.take]
      | inr h2 => rw [h2]; simp [List.take]

/-- C8 (witness): a context with content yields two preserved messages and
an injected block after the system prompt; the structural pruning facts are
instantiated on the three-message conversation. -/
theorem c8_amended_witness :
    num_preserved (some "ctx") = 2
    ∧ build_messages_with_rag [⟨"system", "s"⟩] (some "ctx")
        = [⟨"system", "s"⟩, rag_block "ctx"]
    ∧ (∃ k, (prune_messages tokC8 1 2 msgsC8).2 = msgsC8.take 2 ++ msgsC8.drop (2 + k))
    ∧ (prune_messages tokC8 1 (num_preserved (some " ")) msgsC8).2.head? = msgsC8.head? := by
  refine ⟨?_, ?_, ?_, ?_⟩
  · exact (c8_amended.1 (some "ctx")).mpr ⟨"ctx", rfl, by decide⟩
  · exact c8_amended.2.1 "ctx" ⟨"system", "s"⟩ [] (by decide) rfl
  · exact c8_amended.2.2.1 tokC8 1 2 msgsC8
  · exact c8_amended.2.2.2 tokC8 1 (some " ") msgsC8

/-- C9: for the input "Paragraph one.\n\nParagraph two." with
`max_chars = 20` and `overlap_chars = 5`, `chunk_text` returns exactly two
chunks and the cut point of the first window is position 16, immediately
after the double newline: the split happens exactly at the paragraph
boundary (the first chunk is exactly the first paragraph; the second
carries the documented 5-character overlap from before the boundary). -/
theorem c9_paragraph_split :
    chunk_text "Paragraph one.\n\nParagraph two.".toList 20 5 31
      = ChunkOutcome.ok ["Paragraph one.".toList, "ne.\n\nParagraph two.".toList]
    ∧ ["Paragraph one.".toList, "ne.\n\nParagraph two.".toList].length = 2
    ∧ find_break_point "Paragraph one.\n\nParagraph two.".toList 0 20 5 = 16
    ∧ pySlice "Paragraph one.\n\nParagraph two.".toList 14 16 = ['\n', '\n']
    ∧ pySlice "Paragraph one.\n\nParagraph two.".toList 0 14 = "Paragraph one.".toList := by
  decide

/-- C10: `retrieve` never mutates the manager state: for every state,
collaborators, query, budget and candidate count, the chunks, embeddings,
metadata, loaded flag and cache contents after the call are the state that
went in, on the success path and on every internal-error path alike. -/
theorem c10_retrieve_frame (st : RAGState) (env : RetrieveEnv) (query : List Char)
    (max_tokens top_k : Nat) :
    (rag_retrieve st env query max_tokens top_k).2 = st := by
  unfold rag_retrieve
  split
  · rfl
  · dsimp only
    repeat' split
    all_goals rfl
